import Mathlib

/-!
Verification development for the AutoApply Session Orchestrator.

The durable schema is embedded from `init`/`part_000` (tables
`job_application_sessions` and `application_timeline_events`, including their
CHECK constraints and `ON DELETE CASCADE` foreign keys).  The monitoring
client is embedded from the React `JobMonitor` component.  The orchestrator
service itself (Session Registry, Timeline Store, Broadcast Hub, Control
Plane) is not part of the repository sources, so those operations are
modelled from the specification, as marked in their doc comments.
-/

/-- Session status, from the schema CHECK constraint
`status IN ('queued', 'running', 'paused', 'completed', 'failed')`. -/
inductive SessionStatus
  | queued
  | running
  | paused
  | completed
  | failed
deriving DecidableEq, Repr

/-- Timeline event types.  The schema CHECK constraint allows exactly six
(`thought, tool_call, screenshot, error, pause, resume`); the monitoring
client's `TimelineEvent` interface additionally declares `status_update`,
which it synthesizes locally from stream status messages. -/
inductive EventType
  | thought
  | tool_call
  | screenshot
  | error
  | pause
  | resume
  | status_update
deriving DecidableEq, Repr

/-- The schema CHECK constraint on `application_timeline_events.event_type`:
exactly the six stored event types are admitted. -/
def storedEventTypeOK : EventType → Bool
  | .thought => true
  | .tool_call => true
  | .screenshot => true
  | .error => true
  | .pause => true
  | .resume => true
  | .status_update => false

/-- Error taxonomy of the orchestrator (spec section 7), plus a constraint
violation for the schema CHECK clauses. -/
inductive OrchestratorError
  | NotFoundError
  | DuplicateSessionError
  | InvalidTransitionError
  | InvalidStateError
  | SubscriberOverflowError
  | CheckViolation
deriving DecidableEq, Repr

/-- One row of `job_application_sessions` (schema).  The spec's
`error_detail` is the schema's `error_message` column, `job_reference` is
`job_url`, `resume_reference` is `resume_id`. -/
structure SessionRow where
  session_id : String
  job_url : String
  resume_id : Nat
  status : SessionStatus
  current_step : Option String
  current_thought : Option String
  screenshot_dir : Option String
  tab_index : Option Int
  error_message : Option String
  created_at : Nat
  updated_at : Nat
  completed_at : Option Nat
deriving DecidableEq, Repr

/-- One row of `application_timeline_events` (schema).  `id` is the global
SERIAL primary key, shared across all sessions; it is the only
sequence-number column of the table. -/
structure TimelineEventRow where
  id : Nat
  session_id : String
  event_type : EventType
  timestamp : Nat
  content : String
  metadata : Option String
  screenshot_path : Option String
deriving DecidableEq, Repr

/-- The durable state: the `jobs` table (keyed by url), the two
orchestrator tables, the SERIAL counter backing `id`, a logical clock
standing for `now()`, and the set of pending cooperative pause signals
(modelled from the spec's Control Plane). -/
structure DB where
  jobs : List String
  sessions : List SessionRow
  events : List TimelineEventRow
  nextEventId : Nat
  clock : Nat
  pauseSignals : List String
deriving DecidableEq, Repr

def initDB : DB :=
  { jobs := [], sessions := [], events := [], nextEventId := 0, clock := 0,
    pauseSignals := [] }

def findRow (rows : List SessionRow) (sid : String) : Option SessionRow :=
  rows.find? (fun r => r.session_id == sid)

def findSession (db : DB) (sid : String) : Option SessionRow :=
  findRow db.sessions sid

def statusOf (db : DB) (sid : String) : Option SessionStatus :=
  (findSession db sid).map (fun r => r.status)

/-- Timeline of one session, in stored order (the order of the global
SERIAL ids), as returned by the store's per-session listing. -/
def eventsOf (db : DB) (sid : String) : List TimelineEventRow :=
  db.events.filter (fun e => e.session_id == sid)

/-- Update every row whose `session_id` matches (unique under the
registry's uniqueness invariant). -/
def updateSession (rows : List SessionRow) (sid : String)
    (f : SessionRow → SessionRow) : List SessionRow :=
  rows.map (fun r => if r.session_id == sid then f r else r)

/-- Insert into the `jobs` table; the url is the primary key, an existing
key leaves the table unchanged. -/
def addJob (db : DB) (url : String) : DB :=
  if db.jobs.contains url then db else { db with jobs := db.jobs ++ [url] }

/-- Insert into `application_timeline_events`, enforcing the schema CHECK
constraint on `event_type` and the foreign key on `session_id`; the SERIAL
counter assigns the id and `now()` the timestamp. -/
def insertTimelineEvent (db : DB) (sid : String) (t : EventType)
    (content : String) (shot : Option String) :
    Except OrchestratorError DB :=
  if storedEventTypeOK t then
    match findRow db.sessions sid with
    | none => .error .NotFoundError
    | some _ =>
        .ok { db with
          events := db.events ++
            [{ id := db.nextEventId, session_id := sid, event_type := t,
               timestamp := db.clock, content := content, metadata := none,
               screenshot_path := shot }],
          nextEventId := db.nextEventId + 1,
          clock := db.clock + 1 }
  else .error .CheckViolation

/-- Delete a row of the `jobs` table.  From the schema:
`job_application_sessions.job_url REFERENCES jobs(url) ON DELETE CASCADE`
deletes every session of that job, and
`application_timeline_events.session_id REFERENCES
job_application_sessions(session_id) ON DELETE CASCADE` then deletes each
deleted session's timeline events. -/
def sessionsOfJob (db : DB) (url : String) : List String :=
  (db.sessions.filter (fun s => s.job_url == url)).map (fun s => s.session_id)

def deleteJob (db : DB) (url : String) : DB :=
  { db with
    jobs := db.jobs.filter (fun u => u != url),
    sessions := db.sessions.filter (fun s => s.job_url != url),
    events := db.events.filter
      (fun e => !((sessionsOfJob db url).contains e.session_id)) }

/-- Modelled from the spec: the Session Registry state-machine edges of
section 4.1 (`queued → running → (paused, running cycle) → completed or
failed`, any pre-terminal state may fail, no edge leaves a terminal
state).  The registry implementation is not among the repository
sources. -/
def legalEdge : SessionStatus → SessionStatus → Bool
  | .queued, .running => true
  | .queued, .failed => true
  | .running, .paused => true
  | .running, .completed => true
  | .running, .failed => true
  | .paused, .running => true
  | .paused, .failed => true
  | _, _ => false

/-- Modelled from the spec: `create(job_reference, resume_reference)`
allocates a new session in `queued`, failing with `DuplicateSessionError`
on a pre-existing id; the schema foreign key requires the job row to
exist.  The registry implementation is not among the repository
sources. -/
def create (db : DB) (sid : String) (job : String) (rid : Nat) :
    Except OrchestratorError DB :=
  match findRow db.sessions sid with
  | some _ => .error .DuplicateSessionError
  | none =>
      if db.jobs.contains job then
        .ok { db with
          sessions := db.sessions ++
            [{ session_id := sid, job_url := job, resume_id := rid,
               status := .queued, current_step := none,
               current_thought := none, screenshot_dir := none,
               tab_index := none, error_message := none,
               created_at := db.clock, updated_at := db.clock,
               completed_at := none }],
          clock := db.clock + 1 }
      else .error .NotFoundError

/-- The row update a registry transition performs: new status, bumped
`updated_at`, `completed_at` set exactly on entry to a terminal status,
`error_detail` recorded exactly on entry to `failed`. -/
def transFun (clock : Nat) (new : SessionStatus) (detail : Option String) :
    SessionRow → SessionRow :=
  fun r =>
    { r with
      status := new,
      updated_at := clock,
      completed_at :=
        if new = .completed ∨ new = .failed then some clock
        else r.completed_at,
      error_message :=
        if new = .failed then detail else r.error_message }

/-- The row update of a pause or resume: just the status and
`updated_at`. -/
def setStatusFun (clock : Nat) (st : SessionStatus) :
    SessionRow → SessionRow :=
  fun r => { r with status := st, updated_at := clock }

/-- Modelled from the spec: `transition(session_id, new_status, detail?)`
validates the edge, bumps `updated_at`, sets `completed_at` exactly on
entry to a terminal status, and records a mandatory non-empty
`error_detail` exactly on entry to `failed` (a failed session always
carries a non-empty detail).  The registry implementation is not among
the repository sources. -/
def transition (db : DB) (sid : String) (new : SessionStatus)
    (detail : Option String) : Except OrchestratorError DB :=
  match findRow db.sessions sid with
  | none => .error .NotFoundError
  | some s =>
      if legalEdge s.status new then
        if new = .failed ∧ (detail = none ∨ detail = some "") then
          .error .InvalidStateError
        else
          .ok { db with
            sessions := updateSession db.sessions sid
              (transFun db.clock new detail),
            clock := db.clock + 1 }
      else .error .InvalidTransitionError

def ovw (newv old : Option α) : Option α :=
  match newv with
  | some v => some v
  | none => old

/-- The row update `update_progress` performs: overwrite exactly the
provided fields and bump `updated_at`. -/
def progFun (clock : Nat) (cs ct ssd : Option String) (ti : Option Int) :
    SessionRow → SessionRow :=
  fun r =>
    { r with
      current_step := ovw cs r.current_step,
      current_thought := ovw ct r.current_thought,
      screenshot_dir := ovw ssd r.screenshot_dir,
      tab_index := ovw ti r.tab_index,
      updated_at := clock }

/-- Modelled from the spec: `update_progress` overwrites the named fields,
never the status; fails with `NotFoundError` on an unknown session and
`InvalidStateError` on a terminal one.  The registry implementation is not
among the repository sources. -/
def update_progress (db : DB) (sid : String) (cs ct ssd : Option String)
    (ti : Option Int) : Except OrchestratorError DB :=
  match findRow db.sessions sid with
  | none => .error .NotFoundError
  | some s =>
      if s.status = .completed ∨ s.status = .failed then
        .error .InvalidStateError
      else
        .ok { db with
          sessions := updateSession db.sessions sid
            (progFun db.clock cs ct ssd ti),
          clock := db.clock + 1 }

/-- Modelled from the spec: the Timeline Store's
`append(session_id, event_type, content, metadata?, screenshot_location?)`,
which writes through the schema insert (CHECK constraint and foreign
key).  The store implementation is not among the repository sources. -/
def appendEvent (db : DB) (sid : String) (t : EventType) (content : String)
    (shot : Option String) : Except OrchestratorError DB :=
  insertTimelineEvent db sid t content shot

/-- Modelled from the spec: the Control Plane's `pause(session_id, reason)`
validates that the session is `running`, transitions it to `paused`,
appends a `pause` TimelineEvent and raises the cooperative cancellation
signal.  The control-plane implementation is not among the repository
sources. -/
def pause (db : DB) (sid : String) (reason : String) :
    Except OrchestratorError DB :=
  match findRow db.sessions sid with
  | none => .error .NotFoundError
  | some s =>
      if s.status = .running then
        match insertTimelineEvent
            { db with
              sessions := updateSession db.sessions sid
                (setStatusFun db.clock .paused),
              clock := db.clock + 1 } sid .pause reason none with
        | .ok db2 => .ok { db2 with pauseSignals := sid :: db2.pauseSignals }
        | .error e => .error e
      else .error .InvalidStateError

/-- The `resume` event content: the operator message, or the default. -/
def resumeContent : Option String → String
  | some m => m
  | none => "Agent resumed"

/-- Modelled from the spec: the Control Plane's `resume(session_id,
message?)` validates that the session is `paused`, transitions it to
`running`, appends a `resume` TimelineEvent and clears the cancellation
signal.  The control-plane implementation is not among the repository
sources. -/
def resume (db : DB) (sid : String) (msg : Option String) :
    Except OrchestratorError DB :=
  match findRow db.sessions sid with
  | none => .error .NotFoundError
  | some s =>
      if s.status = .paused then
        match insertTimelineEvent
            { db with
              sessions := updateSession db.sessions sid
                (setStatusFun db.clock .running),
              clock := db.clock + 1 } sid .resume (resumeContent msg) none with
        | .ok db2 =>
            .ok { db2 with
              pauseSignals := db2.pauseSignals.filter (fun x => x != sid) }
        | .error e => .error e
      else .error .InvalidStateError

/-- `pause` then `resume`, as one composite call. -/
def pauseThenResume (db : DB) (sid : String) (reason : String)
    (msg : Option String) : Except OrchestratorError DB :=
  match pause db sid reason with
  | .ok db1 => resume db1 sid msg
  | .error e => .error e

/-- The operations that can touch the durable state. -/
inductive Op
  | addJobOp (url : String)
  | createOp (sid : String) (job : String) (rid : Nat)
  | transitionOp (sid : String) (new : SessionStatus) (detail : Option String)
  | progressOp (sid : String) (cs ct ssd : Option String) (ti : Option Int)
  | appendOp (sid : String) (t : EventType) (content : String)
      (shot : Option String)
  | pauseOp (sid : String) (reason : String)
  | resumeOp (sid : String) (msg : Option String)
  | deleteJobOp (url : String)
deriving DecidableEq, Repr

def exceptD (db : DB) : Except OrchestratorError DB → DB
  | .ok d => d
  | .error _ => db

/-- Apply one operation; a failing operation leaves the state unchanged
(errors are returned synchronously to the caller, spec section 7). -/
def applyOp (db : DB) : Op → DB
  | .addJobOp u => addJob db u
  | .createOp sid j r => exceptD db (create db sid j r)
  | .transitionOp sid n d => exceptD db (transition db sid n d)
  | .progressOp sid cs ct ssd ti =>
      exceptD db (update_progress db sid cs ct ssd ti)
  | .appendOp sid t c sp => exceptD db (appendEvent db sid t c sp)
  | .pauseOp sid r => exceptD db (pause db sid r)
  | .resumeOp sid m => exceptD db (resume db sid m)
  | .deleteJobOp u => deleteJob db u

/-- States reachable from the empty database through the operations. -/
inductive reachable : DB → Prop
  | init : reachable initDB
  | step (op : Op) {db : DB} : reachable db → reachable (applyOp db op)

/-- The operations other than job-catalog deletion. -/
def nonDeleteOp : Op → Bool
  | .deleteJobOp _ => false
  | _ => true

/-- Modelled from the spec: one live subscriber channel of the Broadcast
Hub, holding the `initial_snapshot` taken at subscribe time and the events
the live stream has delivered since.  The hub implementation is not among
the repository sources. -/
structure Subscriber where
  snapshot : List TimelineEventRow
  delivered : List TimelineEventRow
deriving DecidableEq, Repr

/-- Modelled from the spec: the Broadcast Hub state for one session — the
session's timeline log and its current subscriber channels. -/
structure HubState where
  log : List TimelineEventRow
  subs : List Subscriber
deriving DecidableEq, Repr

/-- One atomic hub action on a session: a subscriber attaching, or an
append fanning out.  Interleavings of these atomic actions model the
concurrency of `append` with `subscribe`. -/
inductive HubOp
  | subscribeOp
  | publishOp (e : TimelineEventRow)
deriving DecidableEq, Repr

/-- Modelled from the spec: `subscribe` atomically captures the current
timeline tail as the snapshot of a fresh channel; `append` appends to the
log and fans the event out to every current channel. -/
def hubStep (st : HubState) : HubOp → HubState
  | .subscribeOp =>
      { st with subs := st.subs ++ [{ snapshot := st.log, delivered := [] }] }
  | .publishOp e =>
      { log := st.log ++ [e],
        subs := st.subs.map (fun c => { c with delivered := c.delivered ++ [e] }) }

def hubInit : HubState := { log := [], subs := [] }

def hubRun (ops : List HubOp) : HubState := ops.foldl hubStep hubInit

/-- A client-side timeline entry, from the `TimelineEvent` interface of the
`JobMonitor` component (its `type` union includes `status_update`). -/
structure ClientTimelineEvent where
  type : EventType
  timestamp : String
  content : String
  screenshot_url : Option String
deriving DecidableEq, Repr

/-- Client-side session card state, from the `JobSession` interface of the
`JobMonitor` component. -/
structure JobSession where
  session_id : String
  url : String
  status : SessionStatus
  current_step : String
  screenshot_url : String
  tab_index : Int
  timeline : List ClientTimelineEvent
deriving DecidableEq, Repr

/-- `Map.get` on the client's session map (insertion-ordered pairs). -/
def mapGet (m : List (String × JobSession)) (k : String) : Option JobSession :=
  (m.find? (fun p => p.1 == k)).map (fun p => p.2)

/-- `Map.set` on the client's session map: replace the existing entry in
place, or append a new one. -/
def mapSet (m : List (String × JobSession)) (k : String) (v : JobSession) :
    List (String × JobSession) :=
  if m.any (fun p => p.1 == k) then
    m.map (fun p => if p.1 == k then (k, v) else p)
  else m ++ [(k, v)]

/-- The `JobMonitor` SSE listener for `error` events: if the session is in
the map, set its status to `paused` and append an `error` entry to its
local timeline; otherwise do nothing. -/
def handleErrorEvent (m : List (String × JobSession)) (sid : String)
    (now : String) (errText : String) : List (String × JobSession) :=
  match mapGet m sid with
  | none => m
  | some s =>
      mapSet m sid
        { s with
          status := .paused,
          timeline := s.timeline ++
            [{ type := .error, timestamp := now, content := errText,
               screenshot_url := none }] }

def showStatus : SessionStatus → String
  | .queued => "queued"
  | .running => "running"
  | .paused => "paused"
  | .completed => "completed"
  | .failed => "failed"

/-- The `JobMonitor` SSE listener for `status_update` events: if the
session is in the map, overwrite its status and append a `status_update`
entry to its local timeline. -/
def handleStatusUpdate (m : List (String × JobSession)) (sid : String)
    (now : String) (newStatus : SessionStatus) (message : Option String) :
    List (String × JobSession) :=
  match mapGet m sid with
  | none => m
  | some s =>
      mapSet m sid
        { s with
          status := newStatus,
          timeline := s.timeline ++
            [{ type := .status_update, timestamp := now,
               content :=
                 match message with
                 | some msg => msg
                 | none => "Status: " ++ showStatus newStatus,
               screenshot_url := none }] }

/- Concrete states used by witnesses and counterexamples. -/

/-- A database holding one job, one running session and one appended
`thought` event. -/
def exDB1 : DB :=
  applyOp
    (applyOp
      (applyOp (applyOp initDB (.addJobOp "j1"))
        (.createOp "s1" "j1" 4))
      (.transitionOp "s1" .running none))
    (.appendOp "s1" .thought "reading the form" none)

/-- Two running sessions on one job, with interleaved appends:
session s1 receives global ids 0 and 2, session s2 receives id 1. -/
def exDB2 : DB :=
  applyOp
    (applyOp
      (applyOp
        (applyOp
          (applyOp
            (applyOp
              (applyOp (applyOp initDB (.addJobOp "j1"))
                (.createOp "s1" "j1" 4))
              (.createOp "s2" "j1" 4))
            (.transitionOp "s1" .running none))
          (.transitionOp "s2" .running none))
        (.appendOp "s1" .thought "a" none))
      (.appendOp "s2" .thought "b" none))
    (.appendOp "s1" .thought "c" none)

/-- A database whose single session has failed with a detail. -/
def exDB3 : DB :=
  applyOp
    (applyOp
      (applyOp (applyOp initDB (.addJobOp "j1"))
        (.createOp "s1" "j1" 4))
      (.transitionOp "s1" .running none))
    (.transitionOp "s1" .failed (some "form rejected"))

/-- A client session card as the monitor initializes it. -/
def exCliSession : JobSession :=
  { session_id := "s1", url := "https://jobs.example/1",
    status := .queued, current_step := "Queued", screenshot_url := "",
    tab_index := -1, timeline := [] }

/-- A client session map with one queued session card. -/
def exCliMap : List (String × JobSession) := [("s1", exCliSession)]

/- Registry and store invariants. -/

/-- Per-row registry invariant: `completed_at` is set exactly on the
terminal statuses, and a non-empty `error_detail` is carried exactly by
`failed` rows. -/
def sessionInv (s : SessionRow) : Prop :=
  ((s.completed_at ≠ none) ↔ (s.status = .completed ∨ s.status = .failed)) ∧
  (s.status = .failed → ∃ d, s.error_message = some d ∧ d ≠ "") ∧
  (s.status ≠ .failed → s.error_message = none)

/-- Whole-state invariant: unique session ids, per-row registry invariant,
event ids bounded by the SERIAL counter and strictly increasing, and the
schema CHECK constraint holding of every stored event. -/
def dbInv (db : DB) : Prop :=
  (db.sessions.map (fun r => r.session_id)).Nodup ∧
  (∀ s ∈ db.sessions, sessionInv s) ∧
  (∀ e ∈ db.events, e.id < db.nextEventId) ∧
  ((db.events.map (fun e => e.id)).Pairwise (· < ·)) ∧
  (∀ e ∈ db.events, storedEventTypeOK e.event_type = true)

/- Broadcast Hub invariant. -/

/-- Hub correctness invariant: every subscriber's snapshot followed by its
delivered stream is exactly the session log. -/
def hubInv (st : HubState) : Prop :=
  ∀ c ∈ st.subs, c.snapshot ++ c.delivered = st.log

/- Concrete rows and auxiliary examples for witnesses. -/

def exRow1 : SessionRow :=
  { session_id := "s1", job_url := "j1", resume_id := 4,
    status := .running, current_step := none, current_thought := none,
    screenshot_dir := none, tab_index := none, error_message := none,
    created_at := 0, updated_at := 1, completed_at := none }

def exRow3 : SessionRow :=
  { session_id := "s1", job_url := "j1", resume_id := 4,
    status := .failed, current_step := none, current_thought := none,
    screenshot_dir := none, tab_index := none,
    error_message := some "form rejected",
    created_at := 0, updated_at := 2, completed_at := some 2 }

def exEv1 : TimelineEventRow :=
  { id := 0, session_id := "s1", event_type := .thought, timestamp := 2,
    content := "reading the form", metadata := none,
    screenshot_path := none }

def hubEv1 : TimelineEventRow :=
  { id := 0, session_id := "s1", event_type := .thought, timestamp := 0,
    content := "a", metadata := none, screenshot_path := none }

def hubEv2 : TimelineEventRow :=
  { id := 1, session_id := "s1", event_type := .tool_call, timestamp := 1,
    content := "b", metadata := none, screenshot_path := none }

def exHubOps : List HubOp :=
  [.publishOp hubEv1, .subscribeOp, .publishOp hubEv2]

/-- Checks that a sequence of numbers is consecutive, with no gap between
one element and the next. -/
def seqNoGaps : List Nat → Bool
  | [] => true
  | a :: t =>
      match t with
      | [] => true
      | b :: _ => (b == a + 1) && seqNoGaps t

example : storedEventTypeOK .pause = true := by decide

example : legalEdge .completed .running = false := by decide

example : (eventsOf exDB2 "s1").map (fun e => e.id) = [0, 2] := by decide

example : statusOf exDB3 "s1" = some .failed := by decide

example : eventsOf (deleteJob exDB1 "j1") "s1" = [] := by decide

/- Helper lemmas about the registry row list. -/

theorem findRow_cons {x : SessionRow} {t : List SessionRow} {sid : String} :
    findRow (x :: t) sid =
      if x.session_id = sid then some x else findRow t sid := by
  by_cases h : x.session_id = sid
  · simp [findRow, List.find?_cons_of_pos, h]
  · simp [findRow, List.find?_cons_of_neg, h]

theorem updateSession_cons {x : SessionRow} {t : List SessionRow}
    {sid : String} {f : SessionRow → SessionRow} :
    updateSession (x :: t) sid f =
      (if x.session_id = sid then f x else x) :: updateSession t sid f := by
  by_cases h : x.session_id = sid <;> simp [updateSession, h]

theorem findRow_mem {rows : List SessionRow} {sid : String} {s : SessionRow}
    (h : findRow rows sid = some s) : s ∈ rows ∧ s.session_id = sid := by
  unfold findRow at h
  refine ⟨List.mem_of_find?_eq_some h, ?_⟩
  have hp := List.find?_some h
  simpa using hp

theorem findRow_none {rows : List SessionRow} {sid : String}
    (h : findRow rows sid = none) : ∀ r ∈ rows, r.session_id ≠ sid := by
  unfold findRow at h
  intro r hr
  have := List.find?_eq_none.mp h r hr
  simpa using this

theorem key_unique {rows : List SessionRow}
    (h : (rows.map (fun r => r.session_id)).Nodup)
    {a b : SessionRow} (ha : a ∈ rows) (hb : b ∈ rows)
    (hk : a.session_id = b.session_id) : a = b := by
  induction rows with
  | nil => cases ha
  | cons x t ih =>
      simp only [List.map_cons, List.nodup_cons] at h
      rcases List.mem_cons.mp ha with rfl | ha2
      · rcases List.mem_cons.mp hb with rfl | hb2
        · rfl
        · exfalso
          apply h.1
          rw [hk]
          exact List.mem_map_of_mem _ hb2
      · rcases List.mem_cons.mp hb with rfl | hb2
        · exfalso
          apply h.1
          rw [← hk]
          exact List.mem_map_of_mem _ ha2
        · exact ih h.2 ha2 hb2

theorem findRow_updateSession_self {rows : List SessionRow} {sid : String}
    {s : SessionRow} {f : SessionRow → SessionRow}
    (hf : ∀ r, (f r).session_id = r.session_id)
    (h : findRow rows sid = some s) :
    findRow (updateSession rows sid f) sid = some (f s) := by
  induction rows with
  | nil => simp [findRow] at h
  | cons x t ih =>
      rw [findRow_cons] at h
      rw [updateSession_cons, findRow_cons]
      by_cases hx : x.session_id = sid
      · rw [if_pos hx] at h
        cases h
        rw [if_pos hx, if_pos]
        rw [hf]
        exact hx
      · rw [if_neg hx] at h
        rw [if_neg hx, if_neg hx]
        exact ih h

theorem findRow_updateSession_other {rows : List SessionRow}
    {sid sid2 : String} {f : SessionRow → SessionRow}
    (hf : ∀ r, (f r).session_id = r.session_id) (hne : sid ≠ sid2) :
    findRow (updateSession rows sid2 f) sid = findRow rows sid := by
  induction rows with
  | nil => rfl
  | cons x t ih =>
      rw [updateSession_cons, findRow_cons, findRow_cons]
      by_cases hx : x.session_id = sid2
      · rw [if_pos hx]
        have h1 : (f x).session_id = sid → False := by
          intro hc
          rw [hf] at hc
          exact hne (hc ▸ hx ▸ rfl)
        have h2 : x.session_id ≠ sid := fun hc => hne (by rw [← hc, hx])
        rw [if_neg h1, if_neg h2]
        exact ih
      · rw [if_neg hx]
        by_cases hy : x.session_id = sid
        · rw [if_pos hy, if_pos hy]
        · rw [if_neg hy, if_neg hy]
          exact ih

theorem findRow_append_left {rows rows2 : List SessionRow} {sid : String}
    {s : SessionRow} (h : findRow rows sid = some s) :
    findRow (rows ++ rows2) sid = some s := by
  induction rows with
  | nil => simp [findRow] at h
  | cons x t ih =>
      rw [findRow_cons] at h
      rw [List.cons_append, findRow_cons]
      by_cases hx : x.session_id = sid
      · rw [if_pos hx] at h
        rw [if_pos hx]
        exact h
      · rw [if_neg hx] at h
        rw [if_neg hx]
        exact ih h

theorem updateSession_keys {rows : List SessionRow} {sid : String}
    {f : SessionRow → SessionRow}
    (hf : ∀ r, (f r).session_id = r.session_id) :
    (updateSession rows sid f).map (fun r => r.session_id) =
      rows.map (fun r => r.session_id) := by
  induction rows with
  | nil => rfl
  | cons x t ih =>
      rw [updateSession_cons, List.map_cons, List.map_cons, ih]
      by_cases hx : x.session_id = sid
      · rw [if_pos hx, hf]
      · rw [if_neg hx]

theorem mem_updateSession {rows : List SessionRow} {sid : String}
    {f : SessionRow → SessionRow} {s2 : SessionRow}
    (h : s2 ∈ updateSession rows sid f) :
    ∃ r, r ∈ rows ∧ s2 = if r.session_id = sid then f r else r := by
  unfold updateSession at h
  rcases List.mem_map.mp h with ⟨r, hr, he⟩
  refine ⟨r, hr, ?_⟩
  by_cases hx : r.session_id = sid
  · simp only [hx, if_pos] at he ⊢
    simpa using he.symm
  · simp only [hx, if_neg] at he ⊢
    simp only [show (r.session_id == sid) = false from by simpa using hx] at he
    exact he.symm

theorem transFun_key (c : Nat) (n : SessionStatus) (d : Option String)
    (r : SessionRow) : (transFun c n d r).session_id = r.session_id := rfl

theorem setStatusFun_key (c : Nat) (st : SessionStatus) (r : SessionRow) :
    (setStatusFun c st r).session_id = r.session_id := rfl

theorem progFun_key (c : Nat) (cs ct ssd : Option String) (ti : Option Int)
    (r : SessionRow) :
    (progFun c cs ct ssd ti r).session_id = r.session_id := rfl

/- Characterizations of the successful operations. -/

theorem insert_ok_char {db db2 : DB} {sid : String} {t : EventType}
    {c : String} {sp : Option String}
    (h : insertTimelineEvent db sid t c sp = .ok db2) :
    storedEventTypeOK t = true ∧
    db2.jobs = db.jobs ∧
    db2.sessions = db.sessions ∧
    db2.events = db.events ++
      [{ id := db.nextEventId, session_id := sid, event_type := t,
         timestamp := db.clock, content := c, metadata := none,
         screenshot_path := sp }] ∧
    db2.nextEventId = db.nextEventId + 1 ∧
    db2.pauseSignals = db.pauseSignals := by
  unfold insertTimelineEvent at h
  by_cases ht : storedEventTypeOK t = true
  · rw [if_pos ht] at h
    cases hf : findRow db.sessions sid with
    | none => rw [hf] at h; cases h
    | some s =>
        rw [hf] at h
        cases h
        exact ⟨ht, rfl, rfl, rfl, rfl, rfl⟩
  · rw [if_neg ht] at h
    cases h

theorem create_ok_char {db db2 : DB} {sid job : String} {rid : Nat}
    (h : create db sid job rid = .ok db2) :
    findRow db.sessions sid = none ∧
    db2.jobs = db.jobs ∧
    db2.sessions = db.sessions ++
      [{ session_id := sid, job_url := job, resume_id := rid,
         status := .queued, current_step := none, current_thought := none,
         screenshot_dir := none, tab_index := none, error_message := none,
         created_at := db.clock, updated_at := db.clock,
         completed_at := none }] ∧
    db2.events = db.events ∧
    db2.nextEventId = db.nextEventId ∧
    db2.pauseSignals = db.pauseSignals := by
  unfold create at h
  cases hf : findRow db.sessions sid with
  | some s => rw [hf] at h; cases h
  | none =>
      rw [hf] at h
      simp only [] at h
      by_cases hj : db.jobs.contains job = true
      · rw [if_pos hj] at h
        cases h
        exact ⟨rfl, rfl, rfl, rfl, rfl, rfl⟩
      · rw [if_neg hj] at h
        cases h

theorem transition_ok_char {db db2 : DB} {sid : String}
    {new : SessionStatus} {detail : Option String}
    (h : transition db sid new detail = .ok db2) :
    ∃ s, findRow db.sessions sid = some s ∧
      legalEdge s.status new = true ∧
      ¬(new = .failed ∧ (detail = none ∨ detail = some "")) ∧
      db2.jobs = db.jobs ∧
      db2.sessions = updateSession db.sessions sid
        (transFun db.clock new detail) ∧
      db2.events = db.events ∧
      db2.nextEventId = db.nextEventId ∧
      db2.pauseSignals = db.pauseSignals := by
  unfold transition at h
  cases hf : findRow db.sessions sid with
  | none => rw [hf] at h; cases h
  | some s =>
      rw [hf] at h
      simp only [] at h
      by_cases hl : legalEdge s.status new = true
      · rw [if_pos hl] at h
        by_cases hd : new = .failed ∧ (detail = none ∨ detail = some "")
        · rw [if_pos hd] at h; cases h
        · rw [if_neg hd] at h
          cases h
          exact ⟨s, rfl, hl, hd, rfl, rfl, rfl, rfl, rfl⟩
      · rw [if_neg hl] at h
        cases h

theorem progress_ok_char {db db2 : DB} {sid : String}
    {cs ct ssd : Option String} {ti : Option Int}
    (h : update_progress db sid cs ct ssd ti = .ok db2) :
    ∃ s, findRow db.sessions sid = some s ∧
      ¬(s.status = .completed ∨ s.status = .failed) ∧
      db2.jobs = db.jobs ∧
      db2.sessions = updateSession db.sessions sid
        (progFun db.clock cs ct ssd ti) ∧
      db2.events = db.events ∧
      db2.nextEventId = db.nextEventId ∧
      db2.pauseSignals = db.pauseSignals := by
  unfold update_progress at h
  cases hf : findRow db.sessions sid with
  | none => rw [hf] at h; cases h
  | some s =>
      rw [hf] at h
      simp only [] at h
      by_cases ht : s.status = .completed ∨ s.status = .failed
      · rw [if_pos ht] at h; cases h
      · rw [if_neg ht] at h
        cases h
        exact ⟨s, rfl, ht, rfl, rfl, rfl, rfl, rfl⟩

theorem pause_ok_char {db db2 : DB} {sid : String} {reason : String}
    (h : pause db sid reason = .ok db2) :
    ∃ s, findRow db.sessions sid = some s ∧ s.status = .running ∧
      db2.jobs = db.jobs ∧
      db2.sessions = updateSession db.sessions sid
        (setStatusFun db.clock .paused) ∧
      db2.events = db.events ++
        [{ id := db.nextEventId, session_id := sid, event_type := .pause,
           timestamp := db.clock + 1, content := reason, metadata := none,
           screenshot_path := none }] ∧
      db2.nextEventId = db.nextEventId + 1 := by
  unfold pause at h
  cases hf : findRow db.sessions sid with
  | none => rw [hf] at h; cases h
  | some s =>
      rw [hf] at h
      simp only [] at h
      by_cases hs : s.status = .running
      · rw [if_pos hs] at h
        cases hi : insertTimelineEvent
            { db with
              sessions := updateSession db.sessions sid
                (setStatusFun db.clock .paused),
              clock := db.clock + 1 } sid .pause reason none with
        | error e => rw [hi] at h; cases h
        | ok db3 =>
            rw [hi] at h
            cases h
            have hc := insert_ok_char hi
            exact ⟨s, rfl, hs, hc.2.1, hc.2.2.1, hc.2.2.2.1,
              hc.2.2.2.2.1⟩
      · rw [if_neg hs] at h
        cases h

theorem resume_ok_char {db db2 : DB} {sid : String} {msg : Option String}
    (h : resume db sid msg = .ok db2) :
    ∃ s, findRow db.sessions sid = some s ∧ s.status = .paused ∧
      db2.jobs = db.jobs ∧
      db2.sessions = updateSession db.sessions sid
        (setStatusFun db.clock .running) ∧
      db2.events = db.events ++
        [{ id := db.nextEventId, session_id := sid, event_type := .resume,
           timestamp := db.clock + 1, content := resumeContent msg,
           metadata := none, screenshot_path := none }] ∧
      db2.nextEventId = db.nextEventId + 1 := by
  unfold resume at h
  cases hf : findRow db.sessions sid with
  | none => rw [hf] at h; cases h
  | some s =>
      rw [hf] at h
      simp only [] at h
      by_cases hs : s.status = .paused
      · rw [if_pos hs] at h
        cases hi : insertTimelineEvent
            { db with
              sessions := updateSession db.sessions sid
                (setStatusFun db.clock .running),
              clock := db.clock + 1 } sid .resume (resumeContent msg) none with
        | error e => rw [hi] at h; cases h
        | ok db3 =>
            rw [hi] at h
            cases h
            have hc := insert_ok_char hi
            exact ⟨s, rfl, hs, hc.2.1, hc.2.2.1, hc.2.2.2.1,
              hc.2.2.2.2.1⟩
      · rw [if_neg hs] at h
        cases h

theorem sessionInv_transFun {s : SessionRow} {new : SessionStatus}
    {detail : Option String} {c : Nat}
    (hinv : sessionInv s) (hl : legalEdge s.status new = true)
    (hd : ¬(new = .failed ∧ (detail = none ∨ detail = some ""))) :
    sessionInv (transFun c new detail s) := by
  obtain ⟨h1, h2, h3⟩ := hinv
  have hcompl : (s.status = .completed ∨ s.status = .failed) ∨
      s.completed_at = none := by
    by_cases hterm : s.status = .completed ∨ s.status = .failed
    · exact Or.inl hterm
    · right
      by_contra hne
      exact hterm (h1.mp hne)
  cases new with
  | queued =>
      exfalso
      cases hst : s.status <;> rw [hst] at hl <;> exact absurd hl (by decide)
  | running =>
      have hsrc : s.status = .queued ∨ s.status = .paused := by
        cases hst : s.status <;> rw [hst] at hl <;>
          first
            | exact Or.inl rfl
            | exact Or.inr rfl
            | exact absurd hl (by decide)
      have hnt : ¬(s.status = .completed ∨ s.status = .failed) := by
        rcases hsrc with h | h <;> simp [h]
      have hca : s.completed_at = none := by
        rcases hcompl with h | h
        · exact absurd h hnt
        · exact h
      have hem : s.error_message = none := by
        apply h3
        rcases hsrc with h | h <;> simp [h]
      unfold sessionInv
      refine ⟨?_, ?_, ?_⟩ <;> simp [transFun, hca, hem]
  | paused =>
      have hsrc : s.status = .running := by
        cases hst : s.status <;> rw [hst] at hl <;>
          first
            | rfl
            | exact absurd hl (by decide)
      have hca : s.completed_at = none := by
        rcases hcompl with h | h
        · rw [hsrc] at h
          rcases h with h | h <;> exact absurd h (by decide)
        · exact h
      have hem : s.error_message = none := by
        apply h3
        rw [hsrc]
        decide
      unfold sessionInv
      refine ⟨?_, ?_, ?_⟩ <;> simp [transFun, hca, hem]
  | completed =>
      have hsrc : s.status = .running := by
        cases hst : s.status <;> rw [hst] at hl <;>
          first
            | rfl
            | exact absurd hl (by decide)
      have hem : s.error_message = none := by
        apply h3
        rw [hsrc]
        decide
      unfold sessionInv
      refine ⟨?_, ?_, ?_⟩ <;> simp [transFun, hem]
  | failed =>
      have hdet : ∃ d, detail = some d ∧ d ≠ "" := by
        cases detail with
        | none => exact absurd ⟨rfl, Or.inl rfl⟩ hd
        | some d =>
            refine ⟨d, rfl, ?_⟩
            intro hde
            exact hd ⟨rfl, Or.inr (by rw [hde])⟩
      obtain ⟨d, hds, hdne⟩ := hdet
      unfold sessionInv
      refine ⟨?_, ?_, ?_⟩ <;> simp [transFun, hds, hdne]

theorem sessionInv_setStatus {s : SessionRow} {c : Nat} {st : SessionStatus}
    (hinv : sessionInv s)
    (hsrc : s.status = .running ∨ s.status = .paused)
    (htgt : st = .running ∨ st = .paused) :
    sessionInv (setStatusFun c st s) := by
  obtain ⟨h1, h2, h3⟩ := hinv
  have hnt : ¬(s.status = .completed ∨ s.status = .failed) := by
    rcases hsrc with h | h <;> simp [h]
  have hca : s.completed_at = none := by
    by_contra hne
    exact hnt (h1.mp hne)
  have hem : s.error_message = none := by
    apply h3
    rcases hsrc with h | h <;> simp [h]
  unfold sessionInv
  rcases htgt with h | h <;> subst h <;>
    refine ⟨?_, ?_, ?_⟩ <;> simp [setStatusFun, hca, hem]

theorem sessionInv_progFun {s : SessionRow} {c : Nat}
    {cs ct ssd : Option String} {ti : Option Int}
    (hinv : sessionInv s) : sessionInv (progFun c cs ct ssd ti s) :=
  hinv

theorem evInv_append {db : DB} {e0 : TimelineEventRow}
    (hb : ∀ e ∈ db.events, e.id < db.nextEventId)
    (hp : (db.events.map (fun e => e.id)).Pairwise (· < ·))
    (ht : ∀ e ∈ db.events, storedEventTypeOK e.event_type = true)
    (he0 : e0.id = db.nextEventId)
    (ht0 : storedEventTypeOK e0.event_type = true) :
    (∀ e ∈ db.events ++ [e0], e.id < db.nextEventId + 1) ∧
    (((db.events ++ [e0]).map (fun e => e.id)).Pairwise (· < ·)) ∧
    (∀ e ∈ db.events ++ [e0], storedEventTypeOK e.event_type = true) := by
  refine ⟨?_, ?_, ?_⟩
  · intro e he
    rcases List.mem_append.mp he with h | h
    · exact Nat.lt_succ_of_lt (hb e h)
    · rw [List.mem_singleton.mp h, he0]
      exact Nat.lt_succ_self _
  · rw [List.map_append]
    rw [List.pairwise_append]
    refine ⟨hp, by simp, ?_⟩
    intro a ha b hb2
    rcases List.mem_map.mp ha with ⟨e, he, rfl⟩
    simp only [List.map_cons, List.map_nil, List.mem_singleton] at hb2
    rw [hb2, he0]
    exact hb e he
  · intro e he
    rcases List.mem_append.mp he with h | h
    · exact ht e h
    · rw [List.mem_singleton.mp h]
      exact ht0

theorem sessionInvAll_updateSession {rows : List SessionRow} {sid : String}
    {f : SessionRow → SessionRow}
    (hn : (rows.map (fun r => r.session_id)).Nodup)
    (hall : ∀ s ∈ rows, sessionInv s)
    {s : SessionRow} (hf : findRow rows sid = some s)
    (hFs : sessionInv (f s)) :
    ∀ s2 ∈ updateSession rows sid f, sessionInv s2 := by
  intro s2 hs2
  obtain ⟨r, hr, heq⟩ := mem_updateSession hs2
  by_cases hk : r.session_id = sid
  · rw [if_pos hk] at heq
    obtain ⟨hsmem, hsk⟩ := findRow_mem hf
    have hrs : r = s := key_unique hn hr hsmem (by rw [hk, hsk])
    rw [heq, hrs]
    exact hFs
  · rw [if_neg hk] at heq
    rw [heq]
    exact hall r hr

theorem dbInv_applyOp {db : DB} (h : dbInv db) (op : Op) :
    dbInv (applyOp db op) := by
  obtain ⟨hn, hs, hb, hp, ht⟩ := h
  cases op with
  | addJobOp u =>
      show dbInv (addJob db u)
      unfold addJob
      by_cases hc : db.jobs.contains u = true
      · rw [if_pos hc]
        exact ⟨hn, hs, hb, hp, ht⟩
      · rw [if_neg hc]
        exact ⟨hn, hs, hb, hp, ht⟩
  | createOp sid j r =>
      show dbInv (exceptD db (create db sid j r))
      cases hres : create db sid j r with
      | error e => exact ⟨hn, hs, hb, hp, ht⟩
      | ok db2 =>
          show dbInv db2
          obtain ⟨hfnone, hj, hsess, hev, hnid, hps⟩ := create_ok_char hres
          refine ⟨?_, ?_, ?_, ?_, ?_⟩
          · rw [hsess, List.map_append, List.nodup_append]
            refine ⟨hn, by simp, ?_⟩
            intro a ha hb2
            simp only [List.map_cons, List.map_nil,
              List.mem_singleton] at hb2
            rcases List.mem_map.mp ha with ⟨row, hrow, rfl⟩
            exact findRow_none hfnone row hrow (by rw [hb2])
          · intro s2 hs2
            rw [hsess] at hs2
            rcases List.mem_append.mp hs2 with h2 | h2
            · exact hs s2 h2
            · rw [List.mem_singleton.mp h2]
              unfold sessionInv
              refine ⟨by simp, by simp, by simp⟩
          · rw [hev, hnid]
            exact hb
          · rw [hev]
            exact hp
          · rw [hev]
            exact ht
  | transitionOp sid new detail =>
      show dbInv (exceptD db (transition db sid new detail))
      cases hres : transition db sid new detail with
      | error e => exact ⟨hn, hs, hb, hp, ht⟩
      | ok db2 =>
          show dbInv db2
          obtain ⟨s, hf, hl, hd, hj, hsess, hev, hnid, hps⟩ :=
            transition_ok_char hres
          refine ⟨?_, ?_, ?_, ?_, ?_⟩
          · rw [hsess,
              updateSession_keys (transFun_key db.clock new detail)]
            exact hn
          · rw [hsess]
            exact sessionInvAll_updateSession hn hs hf
              (sessionInv_transFun (hs s (findRow_mem hf).1) hl hd)
          · rw [hev, hnid]
            exact hb
          · rw [hev]
            exact hp
          · rw [hev]
            exact ht
  | progressOp sid cs ct ssd ti =>
      show dbInv (exceptD db (update_progress db sid cs ct ssd ti))
      cases hres : update_progress db sid cs ct ssd ti with
      | error e => exact ⟨hn, hs, hb, hp, ht⟩
      | ok db2 =>
          show dbInv db2
          obtain ⟨s, hf, hnt, hj, hsess, hev, hnid, hps⟩ :=
            progress_ok_char hres
          refine ⟨?_, ?_, ?_, ?_, ?_⟩
          · rw [hsess,
              updateSession_keys (progFun_key db.clock cs ct ssd ti)]
            exact hn
          · rw [hsess]
            exact sessionInvAll_updateSession hn hs hf
              (sessionInv_progFun (hs s (findRow_mem hf).1))
          · rw [hev, hnid]
            exact hb
          · rw [hev]
            exact hp
          · rw [hev]
            exact ht
  | appendOp sid t c sp =>
      show dbInv (exceptD db (appendEvent db sid t c sp))
      cases hres : appendEvent db sid t c sp with
      | error e => exact ⟨hn, hs, hb, hp, ht⟩
      | ok db2 =>
          show dbInv db2
          unfold appendEvent at hres
          obtain ⟨ht0, hj, hsess, hev, hnid, hps⟩ := insert_ok_char hres
          refine ⟨?_, ?_, ?_, ?_, ?_⟩
          · rw [hsess]
            exact hn
          · intro s2 hs2
            rw [hsess] at hs2
            exact hs s2 hs2
          · rw [hev, hnid]
            refine (evInv_append hb hp ht ?_ ?_).1
            · rfl
            · exact ht0
          · rw [hev]
            refine (evInv_append hb hp ht ?_ ?_).2.1
            · rfl
            · exact ht0
          · rw [hev]
            refine (evInv_append hb hp ht ?_ ?_).2.2
            · rfl
            · exact ht0
  | pauseOp sid reason =>
      show dbInv (exceptD db (pause db sid reason))
      cases hres : pause db sid reason with
      | error e => exact ⟨hn, hs, hb, hp, ht⟩
      | ok db2 =>
          show dbInv db2
          obtain ⟨s, hf, hrun, hj, hsess, hev, hnid⟩ := pause_ok_char hres
          refine ⟨?_, ?_, ?_, ?_, ?_⟩
          · rw [hsess,
              updateSession_keys (setStatusFun_key db.clock .paused)]
            exact hn
          · rw [hsess]
            exact sessionInvAll_updateSession hn hs hf
              (sessionInv_setStatus (hs s (findRow_mem hf).1)
                (Or.inl hrun) (Or.inr rfl))
          · rw [hev, hnid]
            refine (evInv_append hb hp ht ?_ ?_).1
            · rfl
            · rfl
          · rw [hev]
            refine (evInv_append hb hp ht ?_ ?_).2.1
            · rfl
            · rfl
          · rw [hev]
            refine (evInv_append hb hp ht ?_ ?_).2.2
            · rfl
            · rfl
  | resumeOp sid msg =>
      show dbInv (exceptD db (resume db sid msg))
      cases hres : resume db sid msg with
      | error e => exact ⟨hn, hs, hb, hp, ht⟩
      | ok db2 =>
          show dbInv db2
          obtain ⟨s, hf, hpau, hj, hsess, hev, hnid⟩ := resume_ok_char hres
          refine ⟨?_, ?_, ?_, ?_, ?_⟩
          · rw [hsess,
              updateSession_keys (setStatusFun_key db.clock .running)]
            exact hn
          · rw [hsess]
            exact sessionInvAll_updateSession hn hs hf
              (sessionInv_setStatus (hs s (findRow_mem hf).1)
                (Or.inr hpau) (Or.inl rfl))
          · rw [hev, hnid]
            refine (evInv_append hb hp ht ?_ ?_).1
            · rfl
            · rfl
          · rw [hev]
            refine (evInv_append hb hp ht ?_ ?_).2.1
            · rfl
            · rfl
          · rw [hev]
            refine (evInv_append hb hp ht ?_ ?_).2.2
            · rfl
            · rfl
  | deleteJobOp u =>
      show dbInv (deleteJob db u)
      simp only [deleteJob]
      refine ⟨?_, ?_, ?_, ?_, ?_⟩
      · exact List.Nodup.sublist
          ((List.filter_sublist _).map (fun r : SessionRow => r.session_id)) hn
      · intro s2 hs2
        exact hs s2 (List.mem_of_mem_filter hs2)
      · intro e he
        exact hb e (List.mem_of_mem_filter he)
      · exact List.Pairwise.sublist
          ((List.filter_sublist _).map (fun e : TimelineEventRow => e.id)) hp
      · intro e he
        exact ht e (List.mem_of_mem_filter he)

theorem dbInv_init : dbInv initDB := by
  refine ⟨?_, ?_, ?_, ?_, ?_⟩ <;> simp [initDB, dbInv]

theorem reachable_dbInv {db : DB} (h : reachable db) : dbInv db := by
  induction h with
  | init => exact dbInv_init
  | step op hr ih => exact dbInv_applyOp ih op

/- Success lemmas for the control-plane operations. -/

theorem insert_ok_of_found (db : DB) (sid : String) (t : EventType)
    (c : String) (sp : Option String) {s0 : SessionRow}
    (hf : findRow db.sessions sid = some s0)
    (ht : storedEventTypeOK t = true) :
    ∃ db2, insertTimelineEvent db sid t c sp = .ok db2 := by
  unfold insertTimelineEvent
  rw [if_pos ht, hf]
  exact ⟨_, rfl⟩

theorem pause_ok_of_running {db : DB} {sid : String} {s : SessionRow}
    (reason : String) (hf : findRow db.sessions sid = some s)
    (hr : s.status = .running) :
    ∃ db2, pause db sid reason = .ok db2 := by
  unfold pause
  rw [hf]
  simp only []
  rw [if_pos hr]
  obtain ⟨db2, hi⟩ := insert_ok_of_found
    { db with
      sessions := updateSession db.sessions sid
        (setStatusFun db.clock .paused),
      clock := db.clock + 1 } sid .pause reason none
    (findRow_updateSession_self (setStatusFun_key db.clock .paused) hf) rfl
  rw [hi]
  exact ⟨_, rfl⟩

theorem resume_ok_of_paused {db : DB} {sid : String} {s : SessionRow}
    (msg : Option String) (hf : findRow db.sessions sid = some s)
    (hr : s.status = .paused) :
    ∃ db2, resume db sid msg = .ok db2 := by
  unfold resume
  rw [hf]
  simp only []
  rw [if_pos hr]
  obtain ⟨db2, hi⟩ := insert_ok_of_found
    { db with
      sessions := updateSession db.sessions sid
        (setStatusFun db.clock .running),
      clock := db.clock + 1 } sid .resume (resumeContent msg) none
    (findRow_updateSession_self (setStatusFun_key db.clock .running) hf) rfl
  rw [hi]
  exact ⟨_, rfl⟩

theorem hubInv_step {st : HubState} (h : hubInv st) (op : HubOp) :
    hubInv (hubStep st op) := by
  cases op with
  | subscribeOp =>
      intro c hc
      rcases List.mem_append.mp hc with h2 | h2
      · exact h c h2
      · rw [List.mem_singleton.mp h2]
        exact List.append_nil st.log
  | publishOp e =>
      intro c hc
      rcases List.mem_map.mp hc with ⟨c0, hc0, rfl⟩
      show c0.snapshot ++ (c0.delivered ++ [e]) = st.log ++ [e]
      rw [← List.append_assoc, h c0 hc0]

theorem hubInv_foldl (ops : List HubOp) :
    ∀ st, hubInv st → hubInv (ops.foldl hubStep st) := by
  induction ops with
  | nil => intro st h; exact h
  | cons op t ih => intro st h; exact ih _ (hubInv_step h op)

/- Client map helpers. -/

theorem find?_map_replace {m : List (String × JobSession)} {k : String}
    {v : JobSession}
    (h : (m.find? (fun p => p.1 == k)).isSome = true) :
    (m.map (fun p => if p.1 == k then (k, v) else p)).find?
      (fun p => p.1 == k) = some (k, v) := by
  induction m with
  | nil => simp at h
  | cons x t ih =>
      by_cases hx : x.1 = k
      · have hbeq : (x.1 == k) = true := by simpa using hx
        rw [List.map_cons, if_pos hbeq]
        exact List.find?_cons_of_pos _ (by simp)
      · have hbeq : ¬((x.1 == k) = true) := by simpa using hx
        rw [List.map_cons, if_neg hbeq]
        have h2 : (x :: t).find? (fun p => p.1 == k) =
            t.find? (fun p => p.1 == k) := by
          apply List.find?_cons_of_neg
          exact hbeq
        rw [h2] at h
        have h3 : (x :: t.map (fun p => if (p.1 == k) = true
              then (k, v) else p)).find? (fun p => p.1 == k) =
            (t.map (fun p => if (p.1 == k) = true
              then (k, v) else p)).find? (fun p => p.1 == k) := by
          apply List.find?_cons_of_neg
          exact hbeq
        rw [h3]
        exact ih h

theorem mapGet_mapSet_self {m : List (String × JobSession)} {k : String}
    {s v : JobSession} (h : mapGet m k = some s) :
    mapGet (mapSet m k v) k = some v := by
  have hf : (m.find? (fun p => p.1 == k)).isSome = true := by
    unfold mapGet at h
    cases hx : m.find? (fun p => p.1 == k) with
    | none => rw [hx] at h; cases h
    | some p => simp
  have hany : m.any (fun p => p.1 == k) = true := by
    cases hx : m.find? (fun p => p.1 == k) with
    | none => rw [hx] at hf; cases hf
    | some p =>
        have hm := List.mem_of_find?_eq_some hx
        have hp := List.find?_some hx
        exact List.any_eq_true.mpr ⟨p, hm, hp⟩
  unfold mapSet
  rw [if_pos hany]
  unfold mapGet
  rw [find?_map_replace hf]
  rfl

theorem exDB1_reachable : reachable exDB1 :=
  reachable.step (.appendOp "s1" .thought "reading the form" none)
    (reachable.step (.transitionOp "s1" .running none)
      (reachable.step (.createOp "s1" "j1" 4)
        (reachable.step (.addJobOp "j1") reachable.init)))

theorem exDB2_reachable : reachable exDB2 :=
  reachable.step (.appendOp "s1" .thought "c" none)
    (reachable.step (.appendOp "s2" .thought "b" none)
      (reachable.step (.appendOp "s1" .thought "a" none)
        (reachable.step (.transitionOp "s2" .running none)
          (reachable.step (.transitionOp "s1" .running none)
            (reachable.step (.createOp "s2" "j1" 4)
              (reachable.step (.createOp "s1" "j1" 4)
                (reachable.step (.addJobOp "j1") reachable.init)))))))

theorem exDB3_reachable : reachable exDB3 :=
  reachable.step (.transitionOp "s1" .failed (some "form rejected"))
    (reachable.step (.transitionOp "s1" .running none)
      (reachable.step (.createOp "s1" "j1" 4)
        (reachable.step (.addJobOp "j1") reachable.init)))

theorem legalEdge_terminal {st : SessionStatus} (new : SessionStatus)
    (h : st = .completed ∨ st = .failed) : legalEdge st new = false := by
  rcases h with h | h <;> subst h <;> cases new <;> rfl

/- Claim theorems. -/

/-- C1 (amended): no orchestrator operation other than a job-catalog
deletion ever mutates or removes a stored TimelineEvent — every operation
leaves the existing event list as a prefix; the schema's `ON DELETE
CASCADE` chain is the sole exception. -/
theorem c1_events_append_only (db : DB) (op : Op)
    (h : nonDeleteOp op = true) :
    ∃ tail, (applyOp db op).events = db.events ++ tail := by
  cases op with
  | deleteJobOp u => cases h
  | addJobOp u =>
      refine ⟨[], ?_⟩
      rw [List.append_nil]
      show (addJob db u).events = db.events
      unfold addJob
      by_cases hc : db.jobs.contains u = true
      · rw [if_pos hc]
      · rw [if_neg hc]
  | createOp sid j r =>
      show ∃ tail, (exceptD db (create db sid j r)).events = db.events ++ tail
      cases hres : create db sid j r with
      | error e =>
          refine ⟨[], ?_⟩
          rw [List.append_nil]
          rfl
      | ok db2 =>
          refine ⟨[], ?_⟩
          rw [List.append_nil]
          exact (create_ok_char hres).2.2.2.1
  | transitionOp sid n d =>
      show ∃ tail,
        (exceptD db (transition db sid n d)).events = db.events ++ tail
      cases hres : transition db sid n d with
      | error e =>
          refine ⟨[], ?_⟩
          rw [List.append_nil]
          rfl
      | ok db2 =>
          obtain ⟨s0, _, _, _, _, _, hev, _, _⟩ := transition_ok_char hres
          refine ⟨[], ?_⟩
          rw [List.append_nil]
          exact hev
  | progressOp sid cs ct ssd ti =>
      show ∃ tail,
        (exceptD db (update_progress db sid cs ct ssd ti)).events =
          db.events ++ tail
      cases hres : update_progress db sid cs ct ssd ti with
      | error e =>
          refine ⟨[], ?_⟩
          rw [List.append_nil]
          rfl
      | ok db2 =>
          obtain ⟨s0, _, _, _, _, hev, _, _⟩ := progress_ok_char hres
          refine ⟨[], ?_⟩
          rw [List.append_nil]
          exact hev
  | appendOp sid t c sp =>
      show ∃ tail,
        (exceptD db (appendEvent db sid t c sp)).events = db.events ++ tail
      cases hres : appendEvent db sid t c sp with
      | error e =>
          refine ⟨[], ?_⟩
          rw [List.append_nil]
          rfl
      | ok db2 =>
          unfold appendEvent at hres
          exact ⟨_, (insert_ok_char hres).2.2.2.1⟩
  | pauseOp sid r =>
      show ∃ tail, (exceptD db (pause db sid r)).events = db.events ++ tail
      cases hres : pause db sid r with
      | error e =>
          refine ⟨[], ?_⟩
          rw [List.append_nil]
          rfl
      | ok db2 =>
          obtain ⟨s0, _, _, _, _, hev, _⟩ := pause_ok_char hres
          exact ⟨_, hev⟩
  | resumeOp sid m =>
      show ∃ tail, (exceptD db (resume db sid m)).events = db.events ++ tail
      cases hres : resume db sid m with
      | error e =>
          refine ⟨[], ?_⟩
          rw [List.append_nil]
          rfl
      | ok db2 =>
          obtain ⟨s0, _, _, _, _, hev, _⟩ := resume_ok_char hres
          exact ⟨_, hev⟩

theorem c1_append_only_witness :
    nonDeleteOp (Op.appendOp "s1" .tool_call "clicked Apply" none) = true ∧
    ∃ tail,
      (applyOp exDB1 (Op.appendOp "s1" .tool_call "clicked Apply" none)).events =
        exDB1.events ++ tail :=
  ⟨by decide,
   c1_events_append_only exDB1
     (Op.appendOp "s1" .tool_call "clicked Apply" none) (by decide)⟩

/-- C1 counterexample: with one job, one session and one stored event,
deleting the job row cascades to the session and its timeline, so the
timeline does not remain queryable after the referenced job record is
removed. -/
theorem c1_cascade_counterexample :
    eventsOf exDB1 "s1" ≠ [] ∧
    eventsOf (deleteJob exDB1 "j1") "s1" = [] ∧
    findSession (deleteJob exDB1 "j1") "s1" = none := by decide

/-- C2: after any interleaving of atomic subscribe and append actions on a
session's hub, every subscriber's initial snapshot followed by its
delivered live stream is exactly the session log — no gap, no duplicate,
in order. -/
theorem c2_snapshot_stream_complete (ops : List HubOp) (c : Subscriber)
    (hc : c ∈ (hubRun ops).subs) :
    c.snapshot ++ c.delivered = (hubRun ops).log := by
  have h := hubInv_foldl ops hubInit ?_
  · exact h c hc
  · intro c0 hc0
    simp [hubInit] at hc0

theorem c2_witness :
    ({ snapshot := [hubEv1], delivered := [hubEv2] } : Subscriber) ∈
      (hubRun exHubOps).subs ∧
    ([hubEv1] : List TimelineEventRow) ++ [hubEv2] = (hubRun exHubOps).log :=
  ⟨by decide,
   c2_snapshot_stream_complete exHubOps
     { snapshot := [hubEv1], delivered := [hubEv2] } (by decide)⟩

/-- C3: in every reachable state, a session row's `completed_at` is set
exactly when its status is `completed` or `failed`. -/
theorem c3_completed_at_iff_terminal (db : DB) (s : SessionRow)
    (h : reachable db) (hmem : s ∈ db.sessions) :
    (s.completed_at ≠ none ↔
      (s.status = .completed ∨ s.status = .failed)) :=
  ((reachable_dbInv h).2.1 s hmem).1

theorem c3_witness :
    exRow3 ∈ exDB3.sessions ∧
    (exRow3.completed_at ≠ none ↔
      (exRow3.status = .completed ∨ exRow3.status = .failed)) :=
  ⟨by decide,
   c3_completed_at_iff_terminal exDB3 exRow3 exDB3_reachable (by decide)⟩

/-- C4: in any reachable state, once a session's status is `completed` or
`failed`, no operation changes it — if the session is still present after
the operation, its status is exactly what it was. -/
theorem c4_no_exit_from_terminal (db : DB) (op : Op) (sid : String)
    (s s2 : SessionRow) (hreach : reachable db)
    (hfind : findSession db sid = some s)
    (hterm : s.status = .completed ∨ s.status = .failed)
    (hfind2 : findSession (applyOp db op) sid = some s2) :
    s2.status = s.status := by
  have hn := (reachable_dbInv hreach).1
  unfold findSession at hfind hfind2
  cases op with
  | addJobOp u =>
      have he : (applyOp db (.addJobOp u)).sessions = db.sessions := by
        show (addJob db u).sessions = db.sessions
        unfold addJob
        by_cases hc : db.jobs.contains u = true
        · rw [if_pos hc]
        · rw [if_neg hc]
      rw [he, hfind] at hfind2
      injection hfind2 with hh
      rw [← hh]
  | createOp sid2 j r =>
      simp only [applyOp] at hfind2
      cases hres : create db sid2 j r with
      | error e =>
          rw [hres] at hfind2
          simp only [exceptD] at hfind2
          rw [hfind] at hfind2
          injection hfind2 with hh
          rw [← hh]
      | ok db2 =>
          rw [hres] at hfind2
          simp only [exceptD] at hfind2
          obtain ⟨hfn, hj, hsess, _, _, _⟩ := create_ok_char hres
          rw [hsess, findRow_append_left hfind] at hfind2
          injection hfind2 with hh
          rw [← hh]
  | transitionOp sid2 n d =>
      simp only [applyOp] at hfind2
      cases hres : transition db sid2 n d with
      | error e =>
          rw [hres] at hfind2
          simp only [exceptD] at hfind2
          rw [hfind] at hfind2
          injection hfind2 with hh
          rw [← hh]
      | ok db2 =>
          rw [hres] at hfind2
          simp only [exceptD] at hfind2
          obtain ⟨s0, hf0, hl, hd, hj, hsess, _, _, _⟩ :=
            transition_ok_char hres
          rw [hsess] at hfind2
          by_cases hss : sid2 = sid
          · subst hss
            rw [hfind] at hf0
            injection hf0 with hh0
            rw [← hh0] at hl
            rw [legalEdge_terminal n hterm] at hl
            simp at hl
          · rw [findRow_updateSession_other (transFun_key db.clock n d)
              (Ne.symm hss), hfind] at hfind2
            injection hfind2 with hh
            rw [← hh]
  | progressOp sid2 cs ct ssd ti =>
      simp only [applyOp] at hfind2
      cases hres : update_progress db sid2 cs ct ssd ti with
      | error e =>
          rw [hres] at hfind2
          simp only [exceptD] at hfind2
          rw [hfind] at hfind2
          injection hfind2 with hh
          rw [← hh]
      | ok db2 =>
          rw [hres] at hfind2
          simp only [exceptD] at hfind2
          obtain ⟨s0, hf0, hnt, hj, hsess, _, _, _⟩ :=
            progress_ok_char hres
          rw [hsess] at hfind2
          by_cases hss : sid2 = sid
          · subst hss
            rw [hfind] at hf0
            injection hf0 with hh0
            rw [← hh0] at hnt
            exact absurd hterm hnt
          · rw [findRow_updateSession_other
              (progFun_key db.clock cs ct ssd ti) (Ne.symm hss),
              hfind] at hfind2
            injection hfind2 with hh
            rw [← hh]
  | appendOp sid2 t c sp =>
      simp only [applyOp] at hfind2
      cases hres : appendEvent db sid2 t c sp with
      | error e =>
          rw [hres] at hfind2
          simp only [exceptD] at hfind2
          rw [hfind] at hfind2
          injection hfind2 with hh
          rw [← hh]
      | ok db2 =>
          rw [hres] at hfind2
          simp only [exceptD] at hfind2
          unfold appendEvent at hres
          obtain ⟨_, _, hsess, _, _, _⟩ := insert_ok_char hres
          rw [hsess, hfind] at hfind2
          injection hfind2 with hh
          rw [← hh]
  | pauseOp sid2 rsn =>
      simp only [applyOp] at hfind2
      cases hres : pause db sid2 rsn with
      | error e =>
          rw [hres] at hfind2
          simp only [exceptD] at hfind2
          rw [hfind] at hfind2
          injection hfind2 with hh
          rw [← hh]
      | ok db2 =>
          rw [hres] at hfind2
          simp only [exceptD] at hfind2
          obtain ⟨s0, hf0, hrun, hj, hsess, _, _⟩ := pause_ok_char hres
          rw [hsess] at hfind2
          by_cases hss : sid2 = sid
          · subst hss
            rw [hfind] at hf0
            injection hf0 with hh0
            rw [← hh0] at hrun
            rcases hterm with h | h <;> rw [h] at hrun <;> simp at hrun
          · rw [findRow_updateSession_other
              (setStatusFun_key db.clock .paused) (Ne.symm hss),
              hfind] at hfind2
            injection hfind2 with hh
            rw [← hh]
  | resumeOp sid2 m =>
      simp only [applyOp] at hfind2
      cases hres : resume db sid2 m with
      | error e =>
          rw [hres] at hfind2
          simp only [exceptD] at hfind2
          rw [hfind] at hfind2
          injection hfind2 with hh
          rw [← hh]
      | ok db2 =>
          rw [hres] at hfind2
          simp only [exceptD] at hfind2
          obtain ⟨s0, hf0, hpau, hj, hsess, _, _⟩ := resume_ok_char hres
          rw [hsess] at hfind2
          by_cases hss : sid2 = sid
          · subst hss
            rw [hfind] at hf0
            injection hf0 with hh0
            rw [← hh0] at hpau
            rcases hterm with h | h <;> rw [h] at hpau <;> simp at hpau
          · rw [findRow_updateSession_other
              (setStatusFun_key db.clock .running) (Ne.symm hss),
              hfind] at hfind2
            injection hfind2 with hh
            rw [← hh]
  | deleteJobOp u =>
      simp only [applyOp, deleteJob] at hfind2
      obtain ⟨hmem2, hkey2⟩ := findRow_mem hfind2
      have hmem2b := List.mem_of_mem_filter hmem2
      obtain ⟨hmem1, hkey1⟩ := findRow_mem hfind
      have hs2 : s2 = s := key_unique hn hmem2b hmem1 (by rw [hkey2, hkey1])
      rw [hs2]

theorem c4_witness :
    findSession exDB3 "s1" = some exRow3 ∧
    (exRow3.status = .completed ∨ exRow3.status = .failed) ∧
    findSession (applyOp exDB3 (.pauseOp "s1" "retry")) "s1" =
      some exRow3 ∧
    exRow3.status = exRow3.status :=
  ⟨by decide, by decide, by decide,
   c4_no_exit_from_terminal exDB3 (.pauseOp "s1" "retry") "s1" exRow3
     exRow3 exDB3_reachable (by decide) (by decide) (by decide)⟩

/-- C5: pausing a running session and then resuming it returns it to
`running` and appends exactly one `pause` and one `resume` event to its
timeline, in that order. -/
theorem c5_pause_resume_roundtrip (db : DB) (sid : String) (s : SessionRow)
    (reason : String) (msg : Option String)
    (hfind : findSession db sid = some s) (hrun : s.status = .running) :
    ∃ db2, pauseThenResume db sid reason msg = .ok db2 ∧
      statusOf db2 sid = some .running ∧
      (eventsOf db2 sid).map (fun e => e.event_type) =
        (eventsOf db sid).map (fun e => e.event_type) ++
          [.pause, .resume] := by
  unfold findSession at hfind
  obtain ⟨dbP, hpok⟩ := pause_ok_of_running reason hfind hrun
  obtain ⟨s0, hf0, hs0, hjP, hsessP, hevP, hnP⟩ := pause_ok_char hpok
  have hfP : findRow dbP.sessions sid =
      some (setStatusFun db.clock .paused s) := by
    rw [hsessP]
    exact findRow_updateSession_self (setStatusFun_key db.clock .paused) hfind
  obtain ⟨dbR, hrok⟩ := resume_ok_of_paused msg hfP rfl
  obtain ⟨s1, hf1, hs1, hjR, hsessR, hevR, hnR⟩ := resume_ok_char hrok
  refine ⟨dbR, ?_, ?_, ?_⟩
  · unfold pauseThenResume
    rw [hpok]
    exact hrok
  · unfold statusOf findSession
    rw [hsessR,
      findRow_updateSession_self (setStatusFun_key dbP.clock .running) hfP]
    rfl
  · unfold eventsOf
    rw [hevR, hevP, List.filter_append, List.filter_append]
    simp [List.map_append]

theorem c5_witness :
    findSession exDB1 "s1" = some exRow1 ∧ exRow1.status = .running ∧
    ∃ db2, pauseThenResume exDB1 "s1" "needs CAPTCHA" none = .ok db2 ∧
      statusOf db2 "s1" = some .running ∧
      (eventsOf db2 "s1").map (fun e => e.event_type) =
        (eventsOf exDB1 "s1").map (fun e => e.event_type) ++
          [.pause, .resume] :=
  ⟨by decide, by decide,
   c5_pause_resume_roundtrip exDB1 "s1" exRow1 "needs CAPTCHA" none
     (by decide) (by decide)⟩

/-- C6: pausing a session that is not `running` fails with
`InvalidStateError` and leaves the whole state unchanged — no status
change and no appended event. -/
theorem c6_pause_not_running_rejected (db : DB) (sid : String)
    (s : SessionRow) (reason : String)
    (hfind : findSession db sid = some s) (hnr : s.status ≠ .running) :
    pause db sid reason = .error .InvalidStateError ∧
    applyOp db (.pauseOp sid reason) = db := by
  unfold findSession at hfind
  have h1 : pause db sid reason = .error .InvalidStateError := by
    unfold pause
    rw [hfind]
    simp only []
    rw [if_neg hnr]
  refine ⟨h1, ?_⟩
  show exceptD db (pause db sid reason) = db
  rw [h1]
  rfl

theorem c6_witness :
    findSession exDB3 "s1" = some exRow3 ∧
    exRow3.status ≠ .running ∧
    (pause exDB3 "s1" "nudge" = .error .InvalidStateError ∧
      applyOp exDB3 (.pauseOp "s1" "nudge") = exDB3) :=
  ⟨by decide, by decide,
   c6_pause_not_running_rejected exDB3 "s1" exRow3 "nudge"
     (by decide) (by decide)⟩

/-- C7 (amended): in every reachable state, the timeline listing of a
session is strictly ordered by sequence number (the global SERIAL id);
consecutive events of one session may be separated by id gaps when
appends for other sessions interleave. -/
theorem c7_session_sequence_strictly_increasing (db : DB) (sid : String)
    (h : reachable db) :
    ((eventsOf db sid).map (fun e => e.id)).Pairwise (· < ·) := by
  have hp := (reachable_dbInv h).2.2.2.1
  unfold eventsOf
  exact List.Pairwise.sublist
    ((List.filter_sublist _).map (fun e : TimelineEventRow => e.id)) hp

theorem c7_witness :
    ((eventsOf exDB2 "s1").map (fun e => e.id)).Pairwise (· < ·) :=
  c7_session_sequence_strictly_increasing exDB2 "s1" exDB2_reachable

/-- C7 counterexample: with two sessions appending in an interleaved
order, session s1 receives the global sequence numbers 0 and 2 — strictly
ordered, but with a gap between consecutive events. -/
theorem c7_gap_counterexample :
    (eventsOf exDB2 "s1").map (fun e => e.id) = [0, 2] ∧
    seqNoGaps ((eventsOf exDB2 "s1").map (fun e => e.id)) = false := by
  decide

/-- C8: in every reachable state, a `failed` session row carries a
non-empty `error_message` (the spec's `error_detail`), and a row in any
other status has it unset. -/
theorem c8_error_detail_iff_failed (db : DB) (s : SessionRow)
    (h : reachable db) (hmem : s ∈ db.sessions) :
    (s.status = .failed → ∃ d, s.error_message = some d ∧ d ≠ "") ∧
    (s.status ≠ .failed → s.error_message = none) :=
  ((reachable_dbInv h).2.1 s hmem).2

theorem c8_witness :
    exRow3 ∈ exDB3.sessions ∧
    ((exRow3.status = .failed →
        ∃ d, exRow3.error_message = some d ∧ d ≠ "") ∧
      (exRow3.status ≠ .failed → exRow3.error_message = none)) :=
  ⟨by decide,
   c8_error_detail_iff_failed exDB3 exRow3 exDB3_reachable (by decide)⟩

/-- C9 (amended): every TimelineEvent stored in the durable table has one
of the six schema event types; the monitoring client's local timeline may
additionally contain `status_update` entries it synthesizes from stream
status messages. -/
theorem c9_stored_event_types (db : DB) (e : TimelineEventRow)
    (h : reachable db) (hmem : e ∈ db.events) :
    storedEventTypeOK e.event_type = true :=
  (reachable_dbInv h).2.2.2.2 e hmem

theorem c9_witness :
    exEv1 ∈ exDB1.events ∧ storedEventTypeOK exEv1.event_type = true :=
  ⟨by decide, c9_stored_event_types exDB1 exEv1 exDB1_reachable (by decide)⟩

/-- C9 counterexample: a `status_update` stream message makes the client
record a timeline entry whose type is `status_update`, which is not among
the six stored event types — so not every event delivered to a subscriber
has one of exactly those six types. -/
theorem c9_status_update_counterexample :
    (mapGet (handleStatusUpdate exCliMap "s1" "t1" .running none)
        "s1").map (fun s => s.timeline.map (fun ev => ev.type)) =
      some [.status_update] ∧
    storedEventTypeOK .status_update = false := by decide

/-- C10: when the monitoring client receives an `error` event on a
session's live stream, it sets that session's displayed status to
`paused` — never `failed` — and appends the error to the local
timeline. -/
theorem c10_error_event_pauses_client (m : List (String × JobSession))
    (sid now errText : String) (s : JobSession)
    (h : mapGet m sid = some s) :
    mapGet (handleErrorEvent m sid now errText) sid =
      some { s with
        status := .paused,
        timeline := s.timeline ++
          [{ type := .error, timestamp := now, content := errText,
             screenshot_url := none }] } ∧
    SessionStatus.paused ≠ SessionStatus.failed := by
  constructor
  · unfold handleErrorEvent
    rw [h]
    simp only []
    exact mapGet_mapSet_self h
  · decide

theorem c10_witness :
    mapGet exCliMap "s1" = some exCliSession ∧
    (mapGet (handleErrorEvent exCliMap "s1" "t9" "element not found")
        "s1" =
      some { exCliSession with
        status := .paused,
        timeline := exCliSession.timeline ++
          [{ type := .error, timestamp := "t9",
             content := "element not found", screenshot_url := none }] } ∧
      SessionStatus.paused ≠ SessionStatus.failed) :=
  ⟨by decide,
   c10_error_event_pauses_client exCliMap "s1" "t9" "element not found"
     exCliSession (by decide)⟩
